import Mathlib

/-!
Shallow embedding of `ChatGPT2docX.py` (repository Giribot/ChatGPT2Docx).

The program turns an exported ChatGPT archive (a `conversations.json` log and
an optional `Dalle-generations` image folder) into one styled DOCX document per
conversation and repackages the documents into one result ZIP.

Modelling conventions:
  * Python strings are Lean `String`s; file-system paths are strings, with
    `os.path.join dir name` embedded as `dir ++ "/" ++ name` and
    `os.path.basename` / `s.split('/')[-1]` embedded as the suffix after the
    last `'/'` (both Python expressions compute exactly that suffix).
  * The file system and the image library (PIL) are oracles passed in as
    function-valued records (`FileSystem`, `RenderEnv`): the embedding is a
    pure function of the program input plus those oracles.
  * A Python exception is `Except.error msg`; `try/except` branches are
    explicit matches.  A raised exception that no handler catches propagates
    as the `Except.error` of the enclosing function, as in the source where
    `generate_conversations_zip` has no handler around its conversation loop.
  * A JSON value that `create_conversation_doc` inspects dynamically with
    `isinstance` is embedded as the tagged union `MsgPart`; `MsgPart.other` stands
    for any value that is neither a string nor a dict.
  * A docx `Document` is the list of elements appended to it, in order;
    `print` diagnostics are collected in a list of strings.
-/

/-- The whitespace characters that Python's `str.strip()` removes (the ASCII
ones; the log text relevant here is ASCII-whitespace delimited). -/
def isPythonSpace (c : Char) : Bool :=
  c = ' ' || c = '\t' || c = '\n' || c = '\r' || c = '\x0b' || c = '\x0c'

/-- Python `s.strip()`: drop leading and trailing whitespace. -/
def pyStrip (s : String) : String :=
  String.mk (((s.data.dropWhile isPythonSpace).reverse.dropWhile isPythonSpace).reverse)

/-- The suffix of `s` after its last `'/'` (the whole of `s` when it has
none): the common value of Python's `os.path.basename(s)` and
`s.split('/')[-1]`, both used by the source. -/
def basename (s : String) : String :=
  String.mk ((s.data.reverse.takeWhile (fun c => c ≠ '/')).reverse)

/-- `os.path.join dir name` for a relative `name`. -/
def joinPath (dir name : String) : String :=
  dir ++ "/" ++ name

/-- Python `s.startswith(p)`: `p` is a prefix of `s`.  (Embedded structurally
over the character lists so that it evaluates inside the kernel.) -/
def startswith (s p : String) : Bool :=
  p.data.isPrefixOf s.data

/-- Python `title.replace(' ', '_')`: with the one-character pattern `' '`,
substring replacement is exactly the per-character map. -/
def replaceSpaces (s : String) : String :=
  String.mk (s.data.map (fun c => if c = ' ' then '_' else c))

/-- Whether an `Except` result is a success (no exception was raised). -/
def succeeded {γ : Type} : Except String γ → Bool
  | Except.ok _ => true
  | Except.error _ => false

/-! ## Tolerant log decoder: `load_json_with_fallback` -/

/-- The fixed candidate encodings, in the order the source tries them
(`encodings = ['utf-8', 'latin-1', 'iso-8859-1']`). -/
def encodings : List String :=
  ["utf-8", "latin-1", "iso-8859-1"]

/-- The message of the `ValueError` raised when every encoding fails. -/
def decodeErrorMessage : String :=
  "Impossible de lire le fichier JSON avec les encodages disponibles."

/-- One iteration of the fallback loop: decode the raw bytes as text under
`encoding` (`none` models a `UnicodeDecodeError`), then parse the text as JSON
(`none` models a `json.JSONDecodeError`).  Both exception types are caught by
the loop's `except` clause, so a `none` at either step is one failed attempt. -/
def attemptLoad {τ α : Type} (decodeText : String → τ → Option String)
    (parseJson : String → Option α) (encoding : String) (bytes : τ) : Option α :=
  (decodeText encoding bytes).bind parseJson

/-- The `for encoding in encodings` loop body of `load_json_with_fallback`,
over an arbitrary remaining list of encodings. -/
def tryEncodings {τ α : Type} (attempt : String → τ → Option α) (bytes : τ) :
    List String → Except String α
  | [] => Except.error decodeErrorMessage
  | encoding :: rest =>
    match attempt encoding bytes with
    | some value => Except.ok value
    | none => tryEncodings attempt bytes rest

/-- `load_json_with_fallback(file_path)`: try each encoding in order; return
the first successful parse; raise `ValueError` when all fail.  The file's raw
content is `bytes`; reading text under an encoding and JSON parsing are the
two oracle steps. -/
def load_json_with_fallback {τ α : Type} (decodeText : String → τ → Option String)
    (parseJson : String → Option α) (bytes : τ) : Except String α :=
  tryEncodings (attemptLoad decodeText parseJson) bytes encodings

/-! ## Image index: `map_images_to_identifiers`, `get_image_paths_from_zip` -/

/-- The file-system oracle used while building the image index: `os.path.exists`,
`os.listdir` (in its iteration order) and `os.path.isfile`. -/
structure FileSystem where
  pathExists : String → Bool
  listdir : String → List String
  isFile : String → Bool

/-- `map_images_to_identifiers(images_dir)`: if the directory exists, map each
regular file of one (non-recursive) directory listing to its full path, keyed
by the bare filename, in listing order; otherwise the index is empty.  The
Python dict is insertion-ordered, embedded as an association list. -/
def map_images_to_identifiers (fs : FileSystem) (imagesDir : String) :
    List (String × String) :=
  if fs.pathExists imagesDir then
    (fs.listdir imagesDir).filterMap (fun file =>
      if fs.isFile (joinPath imagesDir file) then
        some (file, joinPath imagesDir file)
      else none)
  else []

/-- `find_image_for_asset(asset_pointer, image_paths)`: the path of the first
index entry (in index order) whose filename starts with the identifier, else
`None`. -/
def find_image_for_asset (assetPointer : String) :
    List (String × String) → Option String
  | [] => none
  | (fileName, path) :: rest =>
    if startswith fileName assetPointer then some path
    else find_image_for_asset assetPointer rest

/-- `get_image_paths_from_zip(zip_file, extract_path)` after the archive has
been extracted into `extract_path` (the extraction only populates the file
system `fs`): build the index from the `Dalle-generations` subdirectory. -/
def get_image_paths_from_zip (fs : FileSystem) (extractPath : String) :
    List (String × String) :=
  map_images_to_identifiers fs (joinPath extractPath "Dalle-generations")

/-! ## Documents and the renderer: `add_styled_paragraph`, `create_conversation_doc` -/

/-- Paragraph alignment (`WD_ALIGN_PARAGRAPH.CENTER` is the only one used). -/
inductive Align where
  | center
deriving DecidableEq

/-- One docx paragraph as `add_styled_paragraph` produces it: its text and the
optional style, run formatting and alignment.  (Every paragraph also gets the
fixed 6pt spacing before/after; being a constant of every paragraph it is not
a field.) -/
structure Paragraph where
  text : String
  style : Option String
  bold : Bool
  underline : Bool
  color : Option (Nat × Nat × Nat)
  align : Option Align
deriving DecidableEq

/-- A paragraph with every optional styling at its default, as
`doc.add_paragraph(text)` / `add_styled_paragraph(doc, text)` produce. -/
def plainParagraph (text : String) : Paragraph :=
  { text := text, style := none, bold := false, underline := false,
    color := none, align := none }

/-- One element appended to the document: a paragraph, or a picture
(`doc.add_picture` of the re-encoded stream, at a fixed width in inches, with
its paragraph centered afterwards). -/
inductive DocElem where
  | para (p : Paragraph)
  | picture (sourcePath : String) (format : String) (widthInches : Nat) (centered : Bool)
deriving DecidableEq

/-- The text of a document element (a picture carries no text). -/
def textOf : DocElem → String
  | DocElem.para p => p.text
  | DocElem.picture _ _ _ _ => ""

/-- `add_styled_paragraph(doc, text, style, bold, underline, color, align)`:
append one paragraph with the given formatting. -/
def add_styled_paragraph (doc : List DocElem) (text : String) (style : Option String)
    (bold : Bool) (underline : Bool) (color : Option (Nat × Nat × Nat))
    (align : Option Align) : List DocElem :=
  doc ++ [DocElem.para (Paragraph.mk text style bold underline color align)]

/-- One content part, as `create_conversation_doc` inspects it dynamically:
a string, a dict (with its optional `content_type` and `asset_pointer`
values; a missing key reads as `none`, as `dict.get` returns `None`), or any
other shape. -/
inductive MsgPart where
  | str (s : String)
  | dict (contentType : Option String) (assetPointer : Option String)
  | other
deriving DecidableEq

/-- `message['author']['role']` and `message['content'].get('parts', [])` as
the renderer reads them: `author = none` models a message on which the
`['author']['role']` lookup raises (missing key / wrong shape), and
`content = none` one on which `['content']` raises; `content = some parts`
carries the parts list (defaulting to `[]` is the caller's `.get`). -/
structure Message where
  author : Option String
  content : Option (List MsgPart)
deriving DecidableEq

/-- One node of a conversation's `mapping`: `message = none` models
`node_data.get('message')` being absent or falsy (the `if not message` skip). -/
structure Node where
  message : Option Message
deriving DecidableEq

/-- One conversation record: its title and its node mapping in the stored
(insertion) iteration order. -/
structure Conversation where
  title : String
  mapping : List (String × Node)
deriving DecidableEq

/-- The oracles the renderer uses: `os.path.exists`; opening the image with
PIL and re-encoding it to PNG in memory (`Except.error e` models the raised
exception with message `e`, caught by the renderer's `try`); and `doc.save`
(`some e` models a raised exception — not caught anywhere). -/
structure RenderEnv where
  pathExists : String → Bool
  openImage : String → Except String Unit
  saveError : String → Option String

/-- The body of the `for part in parts` loop of `create_conversation_doc`:
given the accumulated (document, diagnostics), process one part.  Mirrors the
source's `isinstance` dispatch, the `user`/other author split, the prefix
lookup, the `try/except` around the PIL work, and the `print` on a missing
image. -/
def renderPart (env : RenderEnv) (imagesPath : List (String × String))
    (author : String) (acc : List DocElem × List String) (part : MsgPart) :
    Except String (List DocElem × List String) :=
  match part with
  | MsgPart.str s =>
    if pyStrip s ≠ "" then
      if author = "user" then
        Except.ok (add_styled_paragraph acc.1 ("Utilisateur : " ++ pyStrip s)
          none true true (some (0, 102, 204)) none, acc.2)
      else
        Except.ok (add_styled_paragraph acc.1 ("Assistant : " ++ pyStrip s)
          none false false none none, acc.2)
    else
      Except.ok acc
  | MsgPart.dict contentType assetPointerField =>
    if contentType = some "image_asset_pointer" then
      match assetPointerField with
      | none =>
        -- `part.get('asset_pointer')` is `None`: `.split('/')` raises, uncaught.
        Except.error "AttributeError: NoneType object has no attribute split"
      | some raw =>
        let assetPointer := basename raw
        match find_image_for_asset assetPointer imagesPath with
        | some imageFilePath =>
          if env.pathExists imageFilePath then
            match env.openImage imageFilePath with
            | Except.ok _ =>
              Except.ok (acc.1 ++
                [DocElem.para (plainParagraph ""),
                 DocElem.picture imageFilePath "PNG" 4 true,
                 DocElem.para (Paragraph.mk ("(Image : " ++ basename imageFilePath ++ ")")
                   (some "Normal") false false none (some Align.center))], acc.2)
            | Except.error e =>
              Except.ok (add_styled_paragraph acc.1
                ("(Erreur lors de l'insertion de l'image : " ++ e ++ ")")
                none false false none none, acc.2)
          else
            Except.ok (acc.1, acc.2 ++ ["Image manquante pour : " ++ assetPointer])
        | none =>
          Except.ok (acc.1, acc.2 ++ ["Image manquante pour : " ++ assetPointer])
    else
      Except.ok acc
  | MsgPart.other => Except.ok acc

/-- The body of the `for node_id, node_data in conversation['mapping'].items()`
loop: skip a node without a (truthy) message, else read the author role and
the parts (either read raising when absent) and fold the parts. -/
def renderNode (env : RenderEnv) (imagesPath : List (String × String))
    (acc : List DocElem × List String) (node : Node) :
    Except String (List DocElem × List String) :=
  match node.message with
  | none => Except.ok acc
  | some message =>
    match message.author with
    | none => Except.error "KeyError: author"
    | some author =>
      match message.content with
      | none => Except.error "KeyError: content"
      | some parts => parts.foldlM (renderPart env imagesPath author) acc

/-- The first half of `create_conversation_doc`: emit the centered bold title
paragraph and a blank spacing paragraph, then walk the mapping in stored
iteration order, folding `renderNode` over the node entries. -/
def walkMapping (env : RenderEnv) (imagesPath : List (String × String))
    (conversation : Conversation) : Except String (List DocElem × List String) :=
  conversation.mapping.foldlM (fun acc entry => renderNode env imagesPath acc entry.2)
    (add_styled_paragraph [] conversation.title (some "Title") true false none
        (some Align.center)
      ++ [DocElem.para (plainParagraph "")], [])

/-- `create_conversation_doc(conversation, images_path, output_dir)`: walk the
mapping (`walkMapping` holds the title and spacing paragraphs and the node
loop), then save the document as `<title with spaces replaced by
underscores>.docx` under `output_dir` and return (document, diagnostics,
output path).  Any uncaught exception of the walk or of `doc.save`
propagates. -/
def create_conversation_doc (env : RenderEnv) (conversation : Conversation)
    (imagesPath : List (String × String)) (outputDir : String) :
    Except String (List DocElem × List String × String) :=
  match walkMapping env imagesPath conversation with
  | Except.error e => Except.error e
  | Except.ok acc =>
    let outputFilePath :=
      joinPath outputDir (replaceSpaces conversation.title ++ ".docx")
    match env.saveError outputFilePath with
    | some e => Except.error e
    | none => Except.ok (acc.1, acc.2, outputFilePath)

/-! ## Batch and packaging: `generate_conversations_zip` -/

/-- The `for conversation in conversations_data` loop of
`generate_conversations_zip`: render each conversation in order, appending its
output path to `docx_files`.  The loop has no exception handler, so the first
failing conversation aborts it. -/
def renderAll (env : RenderEnv) (imgs : List (String × String)) (dir : String) :
    List Conversation → List String → Except String (List String)
  | [], files => Except.ok files
  | conversation :: rest, files =>
    match create_conversation_doc env conversation imgs dir with
    | Except.error e => Except.error e
    | Except.ok r => renderAll env imgs dir rest (files ++ [r.2.2])

/-- `generate_conversations_zip` from the point where `conversations_data` and
`image_paths` are in hand: render every conversation into `docxTempDir`, then
write each produced file into the result archive under its base filename, in
order.  The result is the archive's entry-name list. -/
def generate_conversations_zip (env : RenderEnv) (imagePaths : List (String × String))
    (conversationsData : List Conversation) (docxTempDir : String) :
    Except String (List String) :=
  match renderAll env imagePaths docxTempDir conversationsData [] with
  | Except.error e => Except.error e
  | Except.ok docxFiles => Except.ok (docxFiles.map basename)

/-! ## Concrete fixtures used by witnesses and counterexamples -/

/-- An oracle environment for runs without usable images: no path exists,
opening raises, saving succeeds. -/
def demoEnv : RenderEnv :=
  { pathExists := fun _ => false,
    openImage := fun _ => Except.error "cannot identify image file",
    saveError := fun _ => none }

/-- An oracle environment in which the one image path exists but PIL fails on
it. -/
def brokenImageEnv : RenderEnv :=
  { pathExists := fun _ => true,
    openImage := fun _ => Except.error "broken data stream when reading image file",
    saveError := fun _ => none }

/-- The spec's round-trip conversation: title `"Demo"`, a user part
`"Hello"`, an assistant part `"World"`. -/
def demoConv : Conversation :=
  Conversation.mk "Demo"
    [("node1", Node.mk (some (Message.mk (some "user") (some [MsgPart.str "Hello"])))),
     ("node2", Node.mk (some (Message.mk (some "assistant") (some [MsgPart.str "World"]))))]

/-- The document `demoConv` renders to. -/
def demoDoc : List DocElem :=
  [DocElem.para (Paragraph.mk "Demo" (some "Title") true false none (some Align.center)),
   DocElem.para (plainParagraph ""),
   DocElem.para (Paragraph.mk "Utilisateur : Hello" none true true (some (0, 102, 204)) none),
   DocElem.para (Paragraph.mk "Assistant : World" none false false none none)]

/-- A structurally invalid conversation: its one message has no readable
author role, so rendering it raises. -/
def badConv : Conversation :=
  Conversation.mk "Bad"
    [("node1", Node.mk (some (Message.mk none (some [MsgPart.str "oops"]))))]

/-- A conversation referencing asset `"xyz"` (against an empty image index in
the missing-image scenario). -/
def xyzConv : Conversation :=
  Conversation.mk "Xyz"
    [("node1", Node.mk (some (Message.mk (some "assistant")
      (some [MsgPart.dict (some "image_asset_pointer") (some "xyz")]))))]

/-! ## Helper lemmas -/

/-- The fallback loop returns `Except.ok v` exactly when some encoding of the
list succeeds with `v` and every encoding before it fails. -/
theorem tryEncodings_ok_iff {τ α : Type} (attempt : String → τ → Option α) (bytes : τ)
    (l : List String) (v : α) :
    tryEncodings attempt bytes l = Except.ok v ↔
      ∃ pre enc post, l = pre ++ enc :: post ∧
        (∀ x ∈ pre, attempt x bytes = none) ∧ attempt enc bytes = some v := by
  induction l with
  | nil =>
    constructor
    · intro h
      simp [tryEncodings] at h
    · rintro ⟨pre, enc, post, h, -, -⟩
      exact absurd h (by simp)
  | cons a rest ih =>
    cases h : attempt a bytes with
    | some w =>
      simp only [tryEncodings, h]
      constructor
      · intro hv
        cases hv
        exact ⟨[], a, rest, rfl, by simp, h⟩
      · rintro ⟨pre, enc, post, hdec, hpre, henc⟩
        cases pre with
        | nil =>
          simp only [List.nil_append, List.cons.injEq] at hdec
          obtain ⟨h1, -⟩ := hdec
          subst h1
          rw [h] at henc
          cases henc
          rfl
        | cons b pre2 =>
          simp only [List.cons_append, List.cons.injEq] at hdec
          obtain ⟨hb, -⟩ := hdec
          subst hb
          have hnone := hpre a (by simp)
          rw [h] at hnone
          cases hnone
    | none =>
      simp only [tryEncodings, h]
      rw [ih]
      constructor
      · rintro ⟨pre, enc, post, hdec, hpre, henc⟩
        refine ⟨a :: pre, enc, post, by simp [hdec], ?_, henc⟩
        intro x hx
        rcases List.mem_cons.mp hx with h1 | h1
        · subst h1; exact h
        · exact hpre x h1
      · rintro ⟨pre, enc, post, hdec, hpre, henc⟩
        cases pre with
        | nil =>
          simp only [List.nil_append, List.cons.injEq] at hdec
          obtain ⟨h1, -⟩ := hdec
          subst h1
          rw [h] at henc
          cases henc
        | cons b pre2 =>
          simp only [List.cons_append, List.cons.injEq] at hdec
          obtain ⟨hb, hrest⟩ := hdec
          subst hb
          exact ⟨pre2, enc, post, hrest, fun x hx => hpre x (by simp [hx]), henc⟩

/-- The fallback loop raises exactly when every encoding of the list fails,
and then its message is the fixed `ValueError` message. -/
theorem tryEncodings_error_iff {τ α : Type} (attempt : String → τ → Option α) (bytes : τ)
    (l : List String) (m : String) :
    tryEncodings attempt bytes l = Except.error m ↔
      (m = decodeErrorMessage ∧ ∀ x ∈ l, attempt x bytes = none) := by
  induction l with
  | nil =>
    simp only [tryEncodings, List.not_mem_nil, false_implies, implies_true, and_true]
    constructor
    · intro h; cases h; rfl
    · intro h; rw [h]
  | cons a rest ih =>
    cases h : attempt a bytes with
    | some w =>
      simp only [tryEncodings, h]
      constructor
      · intro hv; cases hv
      · rintro ⟨-, hall⟩
        have hnone := hall a (by simp)
        rw [h] at hnone
        cases hnone
    | none =>
      simp only [tryEncodings, h]
      rw [ih]
      constructor
      · rintro ⟨hm, hall⟩
        refine ⟨hm, ?_⟩
        intro x hx
        rcases List.mem_cons.mp hx with h1 | h1
        · subst h1; exact h
        · exact hall x h1
      · rintro ⟨hm, hall⟩
        exact ⟨hm, fun x hx => hall x (by simp [hx])⟩

/-- A successfully rendered conversation's output path is its title with
spaces replaced by underscores plus `.docx`, under the output directory. -/
theorem create_doc_ok_path (env : RenderEnv) (conversation : Conversation)
    (imgs : List (String × String)) (dir : String)
    (r : List DocElem × List String × String)
    (h : create_conversation_doc env conversation imgs dir = Except.ok r) :
    r.2.2 = joinPath dir (replaceSpaces conversation.title ++ ".docx") := by
  unfold create_conversation_doc at h
  cases hw : walkMapping env imgs conversation with
  | error e =>
    rw [hw] at h
    cases h
  | ok acc =>
    rw [hw] at h
    simp only at h
    cases hs : env.saveError (joinPath dir (replaceSpaces conversation.title ++ ".docx")) with
    | some e =>
      rw [hs] at h
      cases h
    | none =>
      rw [hs] at h
      cases h
      rfl

/-- When the first failing conversation of the batch is reached (everything
before it rendered), the rendering loop raises that conversation's error. -/
theorem renderAll_error_append (env : RenderEnv) (imgs : List (String × String))
    (dir : String) (c : Conversation) (rest : List Conversation) (e : String)
    (hc : create_conversation_doc env c imgs dir = Except.error e) :
    ∀ (pre : List Conversation) (files : List String),
      (∀ c2 ∈ pre, succeeded (create_conversation_doc env c2 imgs dir) = true) →
      renderAll env imgs dir (pre ++ c :: rest) files = Except.error e := by
  intro pre
  induction pre with
  | nil =>
    intro files _
    simp [renderAll, hc]
  | cons a pre2 ih =>
    intro files hpre
    have ha := hpre a (by simp)
    cases h2 : create_conversation_doc env a imgs dir with
    | error e2 =>
      rw [succeeded.eq_def, h2] at ha
      cases ha
    | ok r =>
      simp only [List.cons_append, renderAll, h2]
      exact ih (files ++ [r.2.2]) (fun x hx => hpre x (by simp [hx]))

/-- When the rendering loop succeeds, the produced files are exactly the
per-conversation output paths, in conversation order, after the accumulator. -/
theorem renderAll_ok_files (env : RenderEnv) (imgs : List (String × String)) (dir : String) :
    ∀ (convs : List Conversation) (files out : List String),
      renderAll env imgs dir convs files = Except.ok out →
      out = files ++ convs.map (fun c => joinPath dir (replaceSpaces c.title ++ ".docx")) := by
  intro convs
  induction convs with
  | nil =>
    intro files out h
    cases h
    simp
  | cons c cs ih =>
    intro files out h
    cases hc : create_conversation_doc env c imgs dir with
    | error e =>
      simp only [renderAll, hc] at h
      cases h
    | ok r =>
      simp only [renderAll, hc] at h
      have hrec := ih (files ++ [r.2.2]) out h
      rw [hrec, create_doc_ok_path env c imgs dir r hc]
      simp

/-! ## The claims -/

/-- C1 (amended): in `generate_conversations_zip` a failure to build or
persist one conversation's document is fatal to the whole batch: once every
conversation before it has rendered, the failing conversation's exception
propagates out of the batch loop, no remaining conversation is processed and
no output archive is produced. -/
theorem render_failure_aborts_batch (env : RenderEnv) (imgs : List (String × String))
    (dir : String) (pre : List Conversation) (c : Conversation) (rest : List Conversation)
    (e : String)
    (hpre : ∀ c2 ∈ pre, succeeded (create_conversation_doc env c2 imgs dir) = true)
    (hc : create_conversation_doc env c imgs dir = Except.error e) :
    generate_conversations_zip env imgs (pre ++ c :: rest) dir = Except.error e := by
  unfold generate_conversations_zip
  rw [renderAll_error_append env imgs dir c rest e hc pre [] hpre]

/-- C1, witness: in a concrete batch whose first conversation has a
structurally invalid message, the whole run raises that conversation's
`KeyError`. -/
theorem render_failure_aborts_batch_witness :
    generate_conversations_zip demoEnv [] [badConv, demoConv] "out" =
      Except.error "KeyError: author" :=
  render_failure_aborts_batch demoEnv [] "out" [] badConv [demoConv] "KeyError: author"
    (by simp) rfl

/-- C1, counterexample: the conversation `demoConv` renders successfully on
its own, yet the batch `[badConv, demoConv]` produces no output archive at
all — the failure of `badConv` is not contained to `badConv`, refuting the
claim that the batch continues and the archive holds the successfully
rendered documents. -/
theorem batch_isolation_cex :
    succeeded (create_conversation_doc demoEnv demoConv [] "out") = true ∧
    succeeded (generate_conversations_zip demoEnv [] [badConv, demoConv] "out") = false :=
  ⟨rfl, rfl⟩

/-- C2: `load_json_with_fallback` tries exactly UTF-8, Latin-1, ISO-8859-1 in
that order; it returns `Except.ok v` exactly when some encoding succeeds at
both the text-decoding and the JSON-parsing step with value `v` and every
earlier encoding fails at one of the two steps (so it stops on the first
success); and it raises exactly when every encoding fails, always with the
`DecodeError` message — never returning data in that case. -/
theorem load_json_fallback_spec {τ α : Type} (decodeText : String → τ → Option String)
    (parseJson : String → Option α) (bytes : τ) :
    encodings = ["utf-8", "latin-1", "iso-8859-1"] ∧
    (∀ v, load_json_with_fallback decodeText parseJson bytes = Except.ok v ↔
      ∃ pre enc post, encodings = pre ++ enc :: post ∧
        (∀ x ∈ pre, attemptLoad decodeText parseJson x bytes = none) ∧
        attemptLoad decodeText parseJson enc bytes = some v) ∧
    (∀ m, load_json_with_fallback decodeText parseJson bytes = Except.error m ↔
      (m = decodeErrorMessage ∧
        ∀ x ∈ encodings, attemptLoad decodeText parseJson x bytes = none)) := by
  refine ⟨rfl, ?_, ?_⟩
  · intro v
    exact tryEncodings_ok_iff (attemptLoad decodeText parseJson) bytes encodings v
  · intro m
    exact tryEncodings_error_iff (attemptLoad decodeText parseJson) bytes encodings m

/-- C3: `find_image_for_asset` resolves `"abc123"` against the index entry
`("abc123.png", "p1")` to `p1`; when no indexed filename starts with the
identifier it returns `none` (not-found, no exception); and it returns the
first match in index iteration order. -/
theorem find_image_prefix_spec :
    find_image_for_asset "abc123" [("abc123.png", "p1")] = some "p1" ∧
    (∀ assetPointer (paths : List (String × String)),
      (∀ entry ∈ paths, startswith entry.1 assetPointer = false) →
        find_image_for_asset assetPointer paths = none) ∧
    (∀ assetPointer path fileName (pre post : List (String × String)),
      (∀ entry ∈ pre, startswith entry.1 assetPointer = false) →
        startswith fileName assetPointer = true →
        find_image_for_asset assetPointer (pre ++ (fileName, path) :: post) = some path) := by
  refine ⟨rfl, ?_, ?_⟩
  · intro ap paths h
    induction paths with
    | nil => rfl
    | cons entry rest ih =>
      obtain ⟨f, p⟩ := entry
      have hf := h (f, p) (by simp)
      simp only [find_image_for_asset, hf, Bool.false_eq_true, if_false]
      exact ih (fun x hx => h x (by simp [hx]))
  · intro ap path fileName pre post hpre hmatch
    induction pre with
    | nil => simp [find_image_for_asset, hmatch]
    | cons entry rest ih =>
      obtain ⟨f, p⟩ := entry
      have hf := hpre (f, p) (by simp)
      simp only [List.cons_append, find_image_for_asset, hf, Bool.false_eq_true, if_false]
      exact ih (fun x hx => hpre x (by simp [hx]))

/-- C4 (amended): the one-conversation archive `Demo` (user part `"Hello"`,
assistant part `"World"`, no images) renders to exactly one document saved as
`Demo.docx`, holding in order the title item, the spacing paragraph, the user
paragraph `"Utilisateur : Hello"` (bold, underlined, accent color RGB
(0,102,204)) and the assistant paragraph `"Assistant : World"` with default
styling — the user/assistant prefixes being `"Utilisateur : "` and
`"Assistant : "` (a space on each side of the colon); the run's archive holds
exactly the entry `Demo.docx`. -/
theorem demo_roundtrip :
    create_conversation_doc demoEnv demoConv [] "out" =
      Except.ok (demoDoc, [], "out/Demo.docx") ∧
    generate_conversations_zip demoEnv [] [demoConv] "out" = Except.ok ["Demo.docx"] ∧
    demoDoc.map textOf = ["Demo", "", "Utilisateur : Hello", "Assistant : World"] :=
  ⟨rfl, rfl, rfl⟩

/-- C4, counterexample: the document rendered for `demoConv` contains the
paragraph text `"Utilisateur : Hello"` but no paragraph text
`"Utilisateur: Hello"` and none `"Assistant: World"`: the claimed prefixes
`"Utilisateur: "` and `"Assistant: "` (no space before the colon) are not the
ones the code emits. -/
theorem demo_prefix_cex :
    create_conversation_doc demoEnv demoConv [] "out" =
      Except.ok (demoDoc, [], "out/Demo.docx") ∧
    (demoDoc.map textOf).contains "Utilisateur : Hello" = true ∧
    (demoDoc.map textOf).contains "Utilisateur: Hello" = false ∧
    (demoDoc.map textOf).contains "Assistant: World" = false :=
  ⟨rfl, rfl, rfl, rfl⟩

/-- C5: the walker contributes nothing — and raises nothing — for a node
without a message, for a whitespace-only (or empty) text part, for a part
that is neither a string nor a dict, and for a dict part whose `content_type`
is not `image_asset_pointer`: each returns the accumulated document and
diagnostics unchanged. -/
theorem walker_silent_skips (env : RenderEnv) (imagesPath : List (String × String))
    (author : String) (acc : List DocElem × List String) :
    renderNode env imagesPath acc (Node.mk none) = Except.ok acc ∧
    (∀ s, pyStrip s = "" → renderPart env imagesPath author acc (MsgPart.str s) = Except.ok acc) ∧
    renderPart env imagesPath author acc MsgPart.other = Except.ok acc ∧
    (∀ ct ap, ct ≠ some "image_asset_pointer" →
      renderPart env imagesPath author acc (MsgPart.dict ct ap) = Except.ok acc) := by
  refine ⟨rfl, ?_, rfl, ?_⟩
  · intro s hs
    simp [renderPart, hs]
  · intro ct ap hct
    simp [renderPart, hct]

/-- C6: an image part whose identifier matches nothing in the index
contributes no document element (no image, no placeholder), appends one
`Image manquante` diagnostic, and raises nothing; and the concrete
missing-image run (`xyzConv` against an empty index) still completes with the
output archive present. -/
theorem missing_image_skips_with_diagnostic (env : RenderEnv)
    (imagesPath : List (String × String)) (author : String)
    (doc : List DocElem) (diags : List String) (raw : String)
    (h : find_image_for_asset (basename raw) imagesPath = none) :
    renderPart env imagesPath author (doc, diags)
        (MsgPart.dict (some "image_asset_pointer") (some raw)) =
      Except.ok (doc, diags ++ ["Image manquante pour : " ++ basename raw]) ∧
    generate_conversations_zip demoEnv [] [xyzConv] "out" = Except.ok ["Xyz.docx"] := by
  refine ⟨?_, rfl⟩
  simp [renderPart, h]

/-- C6, witness: the asset `"xyz"` against the empty index is skipped with
the diagnostic. -/
theorem missing_image_skips_witness :
    renderPart demoEnv [] "assistant" ([], [])
        (MsgPart.dict (some "image_asset_pointer") (some "xyz")) =
      Except.ok ([], ["Image manquante pour : xyz"]) :=
  (missing_image_skips_with_diagnostic demoEnv [] "assistant" [] [] "xyz" rfl).1

/-- C7: whenever the resolved image path exists but opening/re-encoding it
raises — whatever the exception message — the renderer appends the visible
error paragraph naming the failure in place of the image and continues (no
exception escapes). -/
theorem image_open_failure_paragraph (env : RenderEnv)
    (imagesPath : List (String × String)) (author : String)
    (doc : List DocElem) (diags : List String) (raw path e : String)
    (hfind : find_image_for_asset (basename raw) imagesPath = some path)
    (hexists : env.pathExists path = true)
    (hopen : env.openImage path = Except.error e) :
    renderPart env imagesPath author (doc, diags)
        (MsgPart.dict (some "image_asset_pointer") (some raw)) =
      Except.ok (doc ++ [DocElem.para (plainParagraph
        ("(Erreur lors de l'insertion de l'image : " ++ e ++ ")"))], diags) := by
  simp [renderPart, hfind, hexists, hopen, add_styled_paragraph, plainParagraph]

/-- C7, witness: a concrete broken image produces the error paragraph and the
rendering continues. -/
theorem image_open_failure_witness :
    renderPart brokenImageEnv [("xyz.png", "d/xyz.png")] "assistant" ([], [])
        (MsgPart.dict (some "image_asset_pointer") (some "xyz")) =
      Except.ok ([DocElem.para (plainParagraph
        ("(Erreur lors de l'insertion de l'image : broken data stream when reading image file)"))],
        []) := by
  have h := image_open_failure_paragraph brokenImageEnv [("xyz.png", "d/xyz.png")] "assistant"
    [] [] "xyz" "d/xyz.png" "broken data stream when reading image file" rfl rfl rfl
  simpa using h

/-- C8: the image index is empty (without error) when the designated folder
does not exist; an entry `(fileName, path)` is in the index exactly when the
folder exists, `fileName` appears in the one non-recursive listing of the
folder, it is a regular file, and `path` is its full path under the folder;
and `get_image_paths_from_zip` scans exactly the `Dalle-generations`
subdirectory of the extracted archive. -/
theorem image_index_spec (fs : FileSystem) (imagesDir extractPath : String) :
    (fs.pathExists imagesDir = false → map_images_to_identifiers fs imagesDir = []) ∧
    (∀ fileName path, (fileName, path) ∈ map_images_to_identifiers fs imagesDir ↔
      (fs.pathExists imagesDir = true ∧ fileName ∈ fs.listdir imagesDir ∧
        fs.isFile (joinPath imagesDir fileName) = true ∧
        path = joinPath imagesDir fileName)) ∧
    get_image_paths_from_zip fs extractPath =
      map_images_to_identifiers fs (joinPath extractPath "Dalle-generations") := by
  refine ⟨?_, ?_, rfl⟩
  · intro h
    simp [map_images_to_identifiers, h]
  · intro fileName path
    cases hex : fs.pathExists imagesDir with
    | false =>
      simp [map_images_to_identifiers, hex]
    | true =>
      simp only [map_images_to_identifiers, hex, if_true, List.mem_filterMap]
      constructor
      · rintro ⟨b, hb, hfb⟩
        cases hf : fs.isFile (joinPath imagesDir b) with
        | false =>
          rw [if_neg (by simp [hf])] at hfb
          cases hfb
        | true =>
          rw [if_pos (by simp [hf])] at hfb
          cases hfb
          exact ⟨trivial, hb, hf, rfl⟩
      · rintro ⟨-, hmem, hfile, rfl⟩
        refine ⟨fileName, hmem, ?_⟩
        rw [if_pos (by simp [hfile])]

/-- C9: when the batch succeeds, the result archive's entry names are exactly
the base filenames of the produced documents, one per conversation in order;
the entry count equals the number of (successfully rendered) conversations;
and every successfully rendered conversation's document is named from its
title with spaces replaced by underscores plus `.docx` (no other
sanitization). -/
theorem packaging_spec (env : RenderEnv) (imgs : List (String × String))
    (convs : List Conversation) (dir : String) (entries : List String)
    (h : generate_conversations_zip env imgs convs dir = Except.ok entries) :
    entries = (convs.map (fun c => joinPath dir (replaceSpaces c.title ++ ".docx"))).map
      basename ∧
    entries.length = convs.length ∧
    (∀ c r, create_conversation_doc env c imgs dir = Except.ok r →
      r.2.2 = joinPath dir (replaceSpaces c.title ++ ".docx")) := by
  unfold generate_conversations_zip at h
  cases hra : renderAll env imgs dir convs [] with
  | error e =>
    rw [hra] at h
    cases h
  | ok files =>
    rw [hra] at h
    cases h
    have hfiles := renderAll_ok_files env imgs dir convs [] files hra
    simp only [List.nil_append] at hfiles
    subst hfiles
    exact ⟨rfl, by simp, fun c r hr => create_doc_ok_path env c imgs dir r hr⟩

/-- C9, witness: the one-conversation demo run packages exactly one entry,
`Demo.docx`. -/
theorem packaging_spec_witness :
    (["Demo.docx"] : List String).length = ([demoConv] : List Conversation).length :=
  (packaging_spec demoEnv [] [demoConv] "out" ["Demo.docx"] rfl).2.1

/-- C10: a non-whitespace text part of a message whose author role is any
string other than exactly `"user"` is rendered as the assistant paragraph
(the `Assistant : ` prefix, default styling); only the exact role `"user"`
takes the user branch. -/
theorem nonuser_role_assistant (env : RenderEnv) (imagesPath : List (String × String))
    (doc : List DocElem) (diags : List String) (role s : String)
    (hrole : role ≠ "user") (hs : pyStrip s ≠ "") :
    renderPart env imagesPath role (doc, diags) (MsgPart.str s) =
      Except.ok (doc ++ [DocElem.para (Paragraph.mk ("Assistant : " ++ pyStrip s)
        none false false none none)], diags) := by
  simp [renderPart, hs, hrole, add_styled_paragraph]

/-- C10, witness: the role `"system"` is rendered with the assistant prefix
and default styling. -/
theorem nonuser_role_assistant_witness :
    renderPart demoEnv [] "system" ([], []) (MsgPart.str "Hi") =
      Except.ok ([DocElem.para (Paragraph.mk "Assistant : Hi" none false false none none)],
        []) := by
  have h := nonuser_role_assistant demoEnv [] [] [] "system" "Hi" (by decide) (by decide)
  simpa using h
